import Mathlib

/-!
Verification of the llm_xml pipeline (src/generate_books.py, src/generate_ff_call.py).

The Python sources are shallowly embedded: pure string functions become Lean
functions on `String`/`List Char`; Python's `str.find` returning `-1` becomes
`Option Nat`; exceptions become `Except PyErr`.  The XML element trees produced
by the standard-library parser `xml.etree.ElementTree` are embedded as the
inductive `XmlElem`, and functions that consume parsed trees
(`create_book_dict`, `parse_books_xml`, `parse_function_def`) are embedded at
the tree level.
-/

namespace LlmXml

/-- Error taxonomy.  Every failure in the sources is a Python `ValueError`
(or a propagated `NameError`/`TypeError` out of `eval`); the constructors
follow the spec's error names, keyed by the message each raise site uses:
`extractionError` for "No valid XML content found", `unsupportedType` for
"Unsupported type: ...", `unknownFunction` for "Function ... not found in
available functions", `valueConversion` for a failed `int(...)`/`float(...)`
parse, `nameError` for an unresolvable name during argument evaluation, and
`invocationError` for a whitelisted callable raising. -/
inductive PyErr where
  | extractionError
  | malformedPayload
  | unsupportedType (typeName : Option String)
  | valueConversion (raw : String)
  | unknownFunction (fname : String)
  | nameError (n : String)
  | invocationError
deriving DecidableEq

/-- Boolean test that `pat` is a prefix of `l` (character lists). -/
def leadsWith : List Char → List Char → Bool
  | [], _ => true
  | _ :: _, [] => false
  | p :: ps, c :: cs => p == c && leadsWith ps cs

/-- Model of Python `str.find`: index of the first occurrence of `pat` in the
haystack, `none` standing for Python's `-1`. -/
def findSub (pat : List Char) : List Char → Option Nat
  | [] => if leadsWith pat [] then some 0 else none
  | c :: cs => if leadsWith pat (c :: cs) then some 0 else (findSub pat cs).map (· + 1)

/-! ### Text sanitizer (clean_xml_content)

`clean_xml_content` applies three `re.sub` calls.  Each regex is a literal
prefix followed (for the author/genre rules) by a greedy run `[^>]+` and a
closing `>`, so each `re.sub` is the usual left-to-right, non-overlapping
scan embedded below: at each position the pattern is tried; on a match the
replacement is emitted and scanning resumes after the match, otherwise one
character is copied and scanning advances by one. -/

/-- The backquote character of a Markdown code fence. -/
def fenceChar : Char := Char.ofNat 96

/-- The regex alternative tried first, the literal fence marker followed by xml. -/
def fenceXml : List Char := [fenceChar, fenceChar, fenceChar, 'x', 'm', 'l']

/-- The bare triple-fence literal, tried second in the alternation. -/
def fenceBare : List Char := [fenceChar, fenceChar, fenceChar]

/-- Fuelled scan for the first rule of `clean_xml_content`, the substitution
of fence markers by the empty string.  Every step consumes at least one
character, so fuel equal to the input length never runs out. -/
def subFencesGo : Nat → List Char → List Char
  | 0, rest => rest
  | fuel + 1, l =>
    match l with
    | [] => []
    | c :: cs =>
      if leadsWith fenceXml (c :: cs) then subFencesGo fuel (cs.drop 5)
      else if leadsWith fenceBare (c :: cs) then subFencesGo fuel (cs.drop 2)
      else c :: subFencesGo fuel cs

/-- The fence substitution at full fuel. -/
def subFences (l : List Char) : List Char := subFencesGo l.length l

/-- Helper for the greedy `[^>]+` followed by a closing angle bracket: returns
the (possibly empty) run of characters before the first closing bracket and
the remainder after it, or `none` when no closing bracket occurs. -/
def scanToGt : List Char → Option (List Char × List Char)
  | [] => none
  | c :: cs =>
    if c == '>' then some ([], cs)
    else (scanToGt cs).map (fun mr => (c :: mr.1, mr.2))

/-- Fuelled scan for the second rule of `clean_xml_content`, rewriting a
malformed author tag with loose attribute text into an open/close pair.  A
matched position consumes the whole tag; a mismatched position (no character
between the tag name and the closing bracket, or no closing bracket at all)
copies one character, exactly the regex engine's advance. -/
def subAuthorGo : Nat → List Char → List Char
  | 0, rest => rest
  | fuel + 1, l =>
    match l with
    | '<' :: 'a' :: 'u' :: 't' :: 'h' :: 'o' :: 'r' :: rest =>
      match scanToGt rest with
      | some (mid, rest') =>
        if mid.isEmpty then
          '<' :: subAuthorGo fuel ('a' :: 'u' :: 't' :: 'h' :: 'o' :: 'r' :: rest)
        else
          ('<' :: 'a' :: 'u' :: 't' :: 'h' :: 'o' :: 'r' :: '>' :: mid) ++
            ('<' :: '/' :: 'a' :: 'u' :: 't' :: 'h' :: 'o' :: 'r' :: '>' ::
              subAuthorGo fuel rest')
      | none => '<' :: subAuthorGo fuel ('a' :: 'u' :: 't' :: 'h' :: 'o' :: 'r' :: rest)
    | c :: cs => c :: subAuthorGo fuel cs
    | [] => []

/-- The author-tag substitution at full fuel. -/
def subAuthor (l : List Char) : List Char := subAuthorGo l.length l

/-- Fuelled scan for the third rule of `clean_xml_content`, rewriting the
vertical-bar genre variant into an open/close pair. -/
def subGenreGo : Nat → List Char → List Char
  | 0, rest => rest
  | fuel + 1, l =>
    match l with
    | '<' :: 'g' :: 'e' :: 'n' :: 'r' :: 'e' :: '|' :: rest =>
      match scanToGt rest with
      | some (mid, rest') =>
        if mid.isEmpty then
          '<' :: subGenreGo fuel ('g' :: 'e' :: 'n' :: 'r' :: 'e' :: '|' :: rest)
        else
          ('<' :: 'g' :: 'e' :: 'n' :: 'r' :: 'e' :: '>' :: mid) ++
            ('<' :: '/' :: 'g' :: 'e' :: 'n' :: 'r' :: 'e' :: '>' ::
              subGenreGo fuel rest')
      | none => '<' :: subGenreGo fuel ('g' :: 'e' :: 'n' :: 'r' :: 'e' :: '|' :: rest)
    | c :: cs => c :: subGenreGo fuel cs
    | [] => []

/-- The genre-tag substitution at full fuel. -/
def subGenre (l : List Char) : List Char := subGenreGo l.length l

/-- Embedding of `clean_xml_content`.  The source builds the string
`''.join(re.sub(pattern, repl, xml_content) for pattern, repl in transformations)`:
every `re.sub` is applied to the original `xml_content`, and the three results
are concatenated. -/
def clean_xml_content (xml_content : String) : String :=
  String.mk (subFences xml_content.data ++ subAuthor xml_content.data ++
    subGenre xml_content.data)

/-! ### Payload extractor (extract_xml_content) -/

/-- The opening delimiter literal searched by `extract_xml_content`. -/
def openDelim : List Char := ['<', 'b', 'o', 'o', 'k', 'l', 'i', 's', 't', '>']

/-- The closing delimiter literal; its length 11 is the source's
`len('</booklist>')`. -/
def closeDelim : List Char := ['<', '/', 'b', 'o', 'o', 'k', 'l', 'i', 's', 't', '>']

/-- Modelled from the spec: the lenient markup normalizer applied to the
extracted fragment is `BeautifulSoup(xml_content, "xml").prettify()` from the
external bs4 library, which is not code of this repository.  Spec section 4.2
requires that "this normalization must not alter element names, attributes, or
text content -- only whitespace/structure presentation"; it is modelled as the
identity on the extracted fragment. -/
def bs4Prettify (s : String) : String := s

/-- Embedding of `extract_xml_content`: Python's `str.find` for each delimiter
(`none` standing for `-1`), failure when either is `-1`, otherwise the slice
`text[start : end + len('</booklist>')]` passed to the normalizer. -/
def extract_xml_content (text : String) : Except PyErr String :=
  match findSub openDelim text.data, findSub closeDelim text.data with
  | none, _ => .error .extractionError
  | _, none => .error .extractionError
  | some s, some e =>
    .ok (bs4Prettify (String.mk ((text.data.drop s).take (e + 11 - s))))

/-! ### Element trees

`xml.etree.ElementTree.fromstring` (Python standard library, external to this
repository) parses a payload string into an element tree, raising `ParseError`
(the spec's `MalformedPayloadError`) on unparsable markup.  The functions of
the sources that consume parsed trees are embedded over this tree type, so
claims quantifying over well-formed payloads quantify over `XmlElem`. -/

/-- An element of a parsed tree: tag, attributes, optional text, children.
`text` is `ElementTree`'s `.text` field, which is `None` for an element with
no text node (including `<t></t>`). -/
inductive XmlElem where
  | mk (tag : String) (attrs : List (String × String)) (text : Option String)
      (children : List XmlElem)

/-- Tag projection. -/
def XmlElem.tag : XmlElem → String
  | .mk t _ _ _ => t

/-- Attribute-list projection; `elem.get(k)` is `List.lookup k`. -/
def XmlElem.attrs : XmlElem → List (String × String)
  | .mk _ a _ _ => a

/-- Text projection. -/
def XmlElem.text : XmlElem → Option String
  | .mk _ _ tx _ => tx

/-- Children projection. -/
def XmlElem.children : XmlElem → List XmlElem
  | .mk _ _ _ ch => ch

/-- Embedding of `Element.find(tag)`: the first direct child carrying the
tag, or `None`. -/
def etFind (el : XmlElem) (name : String) : Option XmlElem :=
  el.children.find? (fun c => c.tag == name)

/-- Embedding of `Element.findall(tag)` for a plain tag: all direct children
carrying the tag, in document order. -/
def etFilterTag (el : XmlElem) (name : String) : List XmlElem :=
  el.children.filter (fun c => c.tag == name)

/-! ### Record parser (generate_books.py) -/

/-- Embedding of `get_element_text`: `None` yields the default, otherwise
`elem.text or default`, where Python's `or` also maps the falsy empty string
to the default. -/
def get_element_text (elem : Option XmlElem) (default : String) : String :=
  match elem with
  | none => default
  | some el =>
    match el.text with
    | none => default
    | some t => if t = "" then default else t

/-- The fixed field list of `create_book_dict`. -/
def bookFields : List String :=
  ["title", "author", "publication_year", "genre", "isbn"]

/-- Embedding of `create_book_dict`: a dict comprehension over the five fixed
field names; the dict is modelled as an association list in insertion order
(the five keys are distinct). -/
def create_book_dict (book_elem : XmlElem) : List (String × String) :=
  bookFields.map (fun element => (element, get_element_text (etFind book_elem element) "Unknown"))

/-- Embedding of `parse_books_xml` after `ET.fromstring`: one record per
`book` child of the root, in document order. -/
def parse_books_xml_tree (root : XmlElem) : List (List (String × String)) :=
  (etFilterTag root "book").map create_book_dict

/-! ### Function descriptor parser and invocation synthesizer (generate_ff_call.py) -/

/-- Python values appearing as converted parameter values.  `float` is carried
as a rational; `none` is Python's `None` (returned by `convert_type` for an
absent raw value). -/
inductive PyVal where
  | none
  | int (n : Int)
  | float (q : Rat)
  | str (s : String)
  | bool (b : Bool)
deriving DecidableEq

/-- Embedding of the `Parameter` dataclass; `name`/`type` come from
`Element.get` and may be absent, `value` is the optional inline text. -/
structure Parameter where
  name : Option String
  type : Option String
  value : Option String
deriving DecidableEq

/-- Embedding of the `Function` dataclass. -/
structure Function where
  name : Option String
  parameters : List Parameter
deriving DecidableEq

/-- Embedding of `parse_function_def` after `ET.fromstring`: the root's `name`
attribute, and one `Parameter` per element on the `./Input/Parameter` path in
document order; `value` is `param.text if param.text else None`, so absent or
empty text both give `None`. -/
def parse_function_def (root : XmlElem) : Function :=
  ⟨root.attrs.lookup "name",
    ((etFilterTag root "Input").map (fun inp => etFilterTag inp "Parameter")).flatten.map
      (fun p =>
        ⟨p.attrs.lookup "name", p.attrs.lookup "type",
          match p.text with
          | Option.none => Option.none
          | some t => if t = "" then Option.none else some t⟩)⟩

/-- Digit run to numeric value. -/
def digitsVal (l : List Char) : Nat :=
  l.foldl (fun n c => n * 10 + (c.toNat - 48)) 0

/-- Nonempty all-digit run to numeric value, `none` otherwise. -/
def parseNatDigits (l : List Char) : Option Nat :=
  if !l.isEmpty && l.all Char.isDigit then some (digitsVal l) else none

/-- Python whitespace stripping (`str.strip()`) on a character list. -/
def pyStrip (l : List Char) : List Char :=
  ((l.dropWhile Char.isWhitespace).reverse.dropWhile Char.isWhitespace).reverse

/-- Optional sign followed by digits, the core of Python `int(...)` applied to
a string (surrounding whitespace is stripped by the caller; underscores and
non-ASCII digits are outside the model). -/
def parseSignedInt : List Char → Option Int
  | '-' :: rest => (parseNatDigits rest).map (fun n => -(n : Int))
  | '+' :: rest => (parseNatDigits rest).map (fun n => (n : Int))
  | l => (parseNatDigits l).map (fun n => (n : Int))

/-- Embedding of the `int` converter: `int(value)`, raising `ValueError` on a
non-numeric string. -/
def pythonInt (v : String) : Except PyErr PyVal :=
  match parseSignedInt (pyStrip v.data) with
  | some n => .ok (.int n)
  | Option.none => .error (.valueConversion v)

/-- Optional sign, digit run, optional point and digit run — the decimal core
of Python `float(...)` (exponents, infinities and nan are outside the model). -/
def parseFloatCore : List Char → Option Rat
  | '-' :: rest => (parseFloatBody rest).map (fun q => -q)
  | '+' :: rest => parseFloatBody rest
  | l => parseFloatBody l
where
  /-- Unsigned decimal body: digits, or digits point digits with at least one
  digit overall. -/
  parseFloatBody (l : List Char) : Option Rat :=
    let ip := l.takeWhile (fun c => c != '.')
    let rest := l.drop ip.length
    match rest with
    | [] => (parseNatDigits ip).map (fun n => (n : Rat))
    | _ :: fp =>
      if (ip.isEmpty && fp.isEmpty) || !(ip.all Char.isDigit) || !(fp.all Char.isDigit) then
        Option.none
      else
        some ((digitsVal ip : Rat) + (digitsVal fp : Rat) / ((10 : Rat) ^ fp.length))

/-- Embedding of the `float` converter: `float(value)`, raising `ValueError`
on a non-numeric string. -/
def pythonFloat (v : String) : Except PyErr PyVal :=
  match parseFloatCore (pyStrip v.data) with
  | some q => .ok (.float q)
  | Option.none => .error (.valueConversion v)

/-- Python lowercasing (`str.lower()`), ASCII core. -/
def pyLower (s : String) : String :=
  String.mk (s.data.map Char.toLower)

/-- The `type_converters` dict of `convert_type`: the four recognized type
names mapped to their converters; the `bool` converter is
`lambda x: x.lower() == 'true'`. -/
def type_converters : List (String × (String → Except PyErr PyVal)) :=
  [("int", pythonInt),
   ("float", pythonFloat),
   ("str", fun v => .ok (.str v)),
   ("bool", fun v => .ok (.bool (pyLower v == "true")))]

/-- Embedding of `convert_type`: the `value is None` guard runs first and
returns Python `None`; then `type_converters.get(type_name)` is consulted
(yielding `None` both for a `None` type name and for a name outside the four
entries, upon which `ValueError(f"Unsupported type: ...")` is raised), and
the converter found is applied to the raw value. -/
def convert_type (value : Option String) (type_name : Option String) : Except PyErr PyVal :=
  match value with
  | Option.none => .ok .none
  | some v =>
    match type_name.bind (fun t => type_converters.lookup t) with
    | Option.none => .error (.unsupportedType type_name)
    | some converter => converter v

/-- Insertion-ordered dict update: overwrite an existing key in place, append
a new key at the end — Python dict assignment semantics. -/
def dictInsert (m : List (Option String × PyVal)) (k : Option String) (v : PyVal) :
    List (Option String × PyVal) :=
  if m.any (fun kv => kv.1 == k) then
    m.map (fun kv => if kv.1 == k then (k, v) else kv)
  else m ++ [(k, v)]

/-- Left-to-right accumulation of the dict comprehension in
`generate_function_call`: parameters with `value is None` are filtered out,
the rest are converted in order, the first conversion error propagating. -/
def genParamsAux (acc : List (Option String × PyVal)) :
    List Parameter → Except PyErr (List (Option String × PyVal))
  | [] => .ok acc
  | p :: ps =>
    match p.value with
    | Option.none => genParamsAux acc ps
    | some v => (convert_type (some v) p.type).bind (fun pv => genParamsAux (dictInsert acc p.name pv) ps)

/-- Embedding of `generate_function_call`. -/
def generate_function_call (func : Function) : Except PyErr (List (Option String × PyVal)) :=
  genParamsAux [] func.parameters

/-! ### Safe invoker (execute_function_call) -/

/-- A whitelisted callable: takes the keyword arguments produced by evaluating
the argument portion of a call expression. -/
structure PyCallable where
  call : List (String × PyVal) → Except PyErr PyVal

/-- Embedding of the name extraction `call_string.split('(')[0].strip()`. -/
def extract_func_name (call_string : String) : String :=
  String.mk (pyStrip (call_string.data.takeWhile (fun c => c != '(')))

/-- Embedding of `execute_function_call`.  The source extracts the candidate
name, raises `ValueError` when it is not a key of `available_functions`, and
otherwise runs `eval(call_string, {"__builtins__": {}}, available_functions)`.
`eval` is the Python interpreter, external to this repository; it is taken as
the parameter `evalFn`, receiving the call string and the locals mapping
`available_functions` exactly as the source passes them (the globals mapping,
whose only key `__builtins__` is an empty dict, contributes no resolvable
name and is folded into the evaluator model `pyEvalExpr` below). -/
def execute_function_call
    (evalFn : String → List (String × PyCallable) → Except PyErr PyVal)
    (call_string : String) (available_functions : List (String × PyCallable)) :
    Except PyErr PyVal :=
  let func_name := extract_func_name call_string
  if (available_functions.lookup func_name).isSome then
    evalFn call_string available_functions
  else
    .error (.unknownFunction func_name)

mutual
/-- The call-expression fragment that `eval` receives in this program:
literals and keyword calls `name(k1=e1, ..., kn=en)`. -/
inductive PyExpr where
  | lit (v : PyVal)
  | callE (fn : String) (args : PyArgs)
/-- Keyword-argument list of a call expression. -/
inductive PyArgs where
  | nil
  | cons (key : String) (e : PyExpr) (rest : PyArgs)
end

mutual
/-- Modelled from the spec: Python's builtin `eval` (external to this
repository) on the call-expression fragment, under the namespaces the source
passes — locals is `available_functions`, globals carries only an empty
`__builtins__` dict.  Name resolution therefore succeeds exactly on the keys
of `available_functions` and no builtin is reachable; an unresolvable name
raises `NameError`. -/
def pyEvalExpr (ns : List (String × PyCallable)) : PyExpr → Except PyErr PyVal
  | .lit v => .ok v
  | .callE fn args =>
    match ns.lookup fn with
    | Option.none => .error (.nameError fn)
    | some c => (pyEvalArgs ns args).bind c.call

/-- Left-to-right evaluation of keyword arguments. -/
def pyEvalArgs (ns : List (String × PyCallable)) : PyArgs → Except PyErr (List (String × PyVal))
  | .nil => .ok []
  | .cons k e rest =>
    (pyEvalExpr ns e).bind (fun v => (pyEvalArgs ns rest).map (fun vs => (k, v) :: vs))
end

/-- A callable returning its keyword argument `x`; stands for a whitelisted
function under test. -/
def fCallable : PyCallable :=
  ⟨fun args =>
    match args.lookup "x" with
    | some v => .ok v
    | Option.none => .error .invocationError⟩

/-- A callable returning its integer keyword argument `y` plus one; stands
for a second whitelist entry referenced from an argument expression. -/
def gCallable : PyCallable :=
  ⟨fun args =>
    match args.lookup "y" with
    | some (.int n) => .ok (.int (n + 1))
    | _ => .error .invocationError⟩

/-- A whitelist holding two entries. -/
def wlBoth : List (String × PyCallable) := [("F", fCallable), ("G", gCallable)]

/-- The same whitelist with every entry other than the called one removed. -/
def wlOnlyF : List (String × PyCallable) := [("F", fCallable)]

/-- A call expression whose argument portion references the other whitelist
entry `G`. -/
def callFG : String := "F(x=G(y=1))"

/-- The parse of `callFG` in the call-expression fragment. -/
def astFG : PyExpr :=
  .callE "F" (.cons "x" (.callE "G" (.cons "y" (.lit (.int 1)) .nil)) .nil)

/-- The evaluator instantiated at the parse of `callFG`: what
`eval("F(x=G(y=1))", {"__builtins__": {}}, available_functions)` computes. -/
def evalFG : String → List (String × PyCallable) → Except PyErr PyVal :=
  fun _ ns => pyEvalExpr ns astFG

/-- A callable adding its integer keyword arguments `a` and `b`; stands for
the whitelisted `calculate_sum` of the source's example. -/
def sumCallable : PyCallable :=
  ⟨fun args =>
    match args.lookup "a", args.lookup "b" with
    | some (.int x), some (.int y) => .ok (.int (x + y))
    | _, _ => .error .invocationError⟩

/-- A concrete parsed book element that has a `title` child with text, a
`genre` child with empty text, and no other children. -/
def bookEx : XmlElem :=
  XmlElem.mk "book" [] Option.none
    [XmlElem.mk "title" [] (some "Siddhartha") [],
     XmlElem.mk "genre" [] (some "") []]

/-! ## Helper lemmas -/

theorem leadsWith_iff_append {p l : List Char} :
    leadsWith p l = true ↔ ∃ t, l = p ++ t := by
  induction p generalizing l with
  | nil => simp [leadsWith]
  | cons a as ih =>
    cases l with
    | nil => simp [leadsWith]
    | cons b bs =>
      simp only [leadsWith, Bool.and_eq_true, beq_iff_eq, ih, List.cons_append,
        List.cons.injEq]
      constructor
      · rintro ⟨rfl, t, rfl⟩
        exact ⟨t, rfl, rfl⟩
      · rintro ⟨t, rfl, rfl⟩
        exact ⟨rfl, t, rfl⟩

theorem leadsWith_append (p t : List Char) : leadsWith p (p ++ t) = true :=
  leadsWith_iff_append.mpr ⟨t, rfl⟩

theorem leadsWith_take {p l : List Char} {n : Nat}
    (h : leadsWith p (l.take n) = true) : leadsWith p l = true := by
  obtain ⟨t, ht⟩ := leadsWith_iff_append.mp h
  refine leadsWith_iff_append.mpr ⟨t ++ l.drop n, ?_⟩
  conv_lhs => rw [← List.take_append_drop n l]
  rw [ht, List.append_assoc]

theorem findSub_of_leadsWith {pat hay : List Char} (h : leadsWith pat hay = true) :
    findSub pat hay = some 0 := by
  cases hay <;> simp [findSub, h]

theorem findSub_some {pat hay : List Char} {i : Nat} (h : findSub pat hay = some i) :
    leadsWith pat (hay.drop i) = true := by
  induction hay generalizing i with
  | nil =>
    simp only [findSub] at h
    split at h
    · cases h
      simpa using ‹leadsWith pat [] = true›
    · cases h
  | cons c cs ih =>
    simp only [findSub] at h
    split at h
    next hl =>
      cases h
      simpa using hl
    next hl =>
      obtain ⟨j, hj, hji⟩ := Option.map_eq_some'.mp h
      subst hji
      simpa using ih hj

theorem findSub_min {pat hay : List Char} {i : Nat} (h : findSub pat hay = some i) :
    ∀ j, j < i → leadsWith pat (hay.drop j) = false := by
  induction hay generalizing i with
  | nil =>
    intro j hj
    simp only [findSub] at h
    split at h
    · cases h
      omega
    · cases h
  | cons c cs ih =>
    intro j hj
    simp only [findSub] at h
    split at h
    next hl =>
      cases h
      omega
    next hl =>
      obtain ⟨k, hk, hki⟩ := Option.map_eq_some'.mp h
      subst hki
      cases j with
      | zero => simpa [Bool.not_eq_true] using hl
      | succ j' =>
        have := ih hk j' (by omega)
        simpa using this

theorem findSub_le_of_leadsWith {pat hay : List Char} {k : Nat}
    (h : leadsWith pat (hay.drop k) = true) :
    ∃ i, findSub pat hay = some i ∧ i ≤ k := by
  induction hay generalizing k with
  | nil =>
    rw [List.drop_nil] at h
    exact ⟨0, by simp [findSub, h], Nat.zero_le k⟩
  | cons c cs ih =>
    by_cases hl : leadsWith pat (c :: cs) = true
    · exact ⟨0, by simp [findSub, hl], Nat.zero_le k⟩
    · cases k with
      | zero => simp only [List.drop_zero] at h; exact absurd h hl
      | succ k' =>
        rw [List.drop_succ_cons] at h
        obtain ⟨i, hi, hik⟩ := ih h
        exact ⟨i + 1, by simp [findSub, hl, hi], by omega⟩

theorem lookup_type_converters_eq_none {t : String}
    (h : t ∉ (["int", "float", "str", "bool"] : List String)) :
    type_converters.lookup t = Option.none := by
  simp only [List.mem_cons, List.not_mem_nil, or_false, not_or] at h
  obtain ⟨h1, h2, h3, h4⟩ := h
  have e1 : (t == "int") = false := beq_eq_false_iff_ne.mpr h1
  have e2 : (t == "float") = false := beq_eq_false_iff_ne.mpr h2
  have e3 : (t == "str") = false := beq_eq_false_iff_ne.mpr h3
  have e4 : (t == "bool") = false := beq_eq_false_iff_ne.mpr h4
  simp [type_converters, List.lookup, e1, e2, e3, e4]

theorem convert_type_unsupported {t : String}
    (h : t ∉ (["int", "float", "str", "bool"] : List String)) (v : String) :
    convert_type (some v) (some t) = .error (.unsupportedType (some t)) := by
  simp [convert_type, lookup_type_converters_eq_none h]

/-! ## Claim theorems -/

/-- C2: the claim says `sanitize` is idempotent on inputs free of the three
malformations and applies its transformations as an order-preserving sequence.
The source instead concatenates the three independently substituted copies of
the input (`''.join` over a generator whose every `re.sub` reads the original
`xml_content`), so the malformation-free input `"x"` is mapped to `"xxx"` and
a second application gives `"xxxxxxxxx"`: not idempotent, and content is
triplicated rather than kept in place. -/
theorem sanitize_concatenates_three_copies :
    clean_xml_content "x" = "xxx"
    ∧ clean_xml_content (clean_xml_content "x") ≠ clean_xml_content "x" := by
  have h1 : clean_xml_content "x" = "xxx" := by rfl
  have h2 : clean_xml_content "xxx" = "xxxxxxxxx" := by rfl
  refine ⟨h1, ?_⟩
  rw [h1, h2]
  decide

/-- C5: whenever the extracted candidate name is not a key of the whitelist,
`execute_function_call` fails with the unknown-function error, and the result
does not depend on the evaluator at all — the argument portion is never
evaluated, the name gate coming strictly first. -/
theorem unknown_name_rejected_early :
    ∀ (evalFn evalFn' : String → List (String × PyCallable) → Except PyErr PyVal)
      (call : String) (wl : List (String × PyCallable)),
      (wl.lookup (extract_func_name call)).isSome = false →
      execute_function_call evalFn call wl
          = .error (.unknownFunction (extract_func_name call))
      ∧ execute_function_call evalFn call wl = execute_function_call evalFn' call wl := by
  intro e1 e2 call wl h
  constructor <;> simp [execute_function_call, h]

/-- Witness for C5: `invoke("Delete(a=1)", {"CalculateSum": ...})` fails with
the unknown-function error for the delete-like name. -/
theorem unknown_name_rejected_early_witness :
    execute_function_call (fun _ _ => .ok .none) "Delete(a=1)"
        [("CalculateSum", sumCallable)]
      = .error (.unknownFunction "Delete") :=
  (unknown_name_rejected_early (fun _ _ => .ok .none) (fun _ _ => .ok .none)
    "Delete(a=1)" [("CalculateSum", sumCallable)] (by rfl)).1

/-- C6: converting with declared type bool compares the lowercased raw value
against the literal true: the conversion succeeds for every raw value, yields
true exactly when the lowercased value equals the literal, and in particular
maps true and TRUE to true, and false and no to false. -/
theorem convert_bool_case_insensitive :
    ∀ v : String,
      (convert_type (some v) (some "bool") = .ok (.bool true) ↔ pyLower v = "true")
      ∧ convert_type (some v) (some "bool") = .ok (.bool (pyLower v == "true"))
      ∧ convert_type (some "true") (some "bool") = .ok (.bool true)
      ∧ convert_type (some "TRUE") (some "bool") = .ok (.bool true)
      ∧ convert_type (some "false") (some "bool") = .ok (.bool false)
      ∧ convert_type (some "no") (some "bool") = .ok (.bool false) := by
  intro v
  have hb : convert_type (some v) (some "bool") = .ok (.bool (pyLower v == "true")) := rfl
  refine ⟨?_, hb, by rfl, by rfl, by rfl, by rfl⟩
  rw [hb]
  constructor
  · intro h
    have hbool : (pyLower v == "true") = true := by
      injection h with h'
      injection h' with h''
    exact beq_iff_eq.mp hbool
  · intro h
    rw [beq_iff_eq.mpr h]

/-- C7: a parameter whose declared type is outside the four recognized names
and whose raw value is present parses fine at the tree level — the descriptor
parser stores the unvalidated type — and the failure with the
unsupported-type error happens at synthesis, when `generate_function_call`
converts the value. -/
theorem unsupported_type_fails_at_synthesis :
    ∀ (fname pname t v : String),
      t ∉ (["int", "float", "str", "bool"] : List String) → v ≠ "" →
      parse_function_def (XmlElem.mk "Function" [("name", fname)] Option.none
          [XmlElem.mk "Input" [] Option.none
            [XmlElem.mk "Parameter" [("name", pname), ("type", t)] (some v) []]])
        = ⟨some fname, [⟨some pname, some t, some v⟩]⟩
      ∧ generate_function_call ⟨some fname, [⟨some pname, some t, some v⟩]⟩
        = .error (.unsupportedType (some t)) := by
  intro fname pname t v ht hv
  constructor
  · simp [parse_function_def, etFilterTag, XmlElem.children, XmlElem.tag,
      XmlElem.attrs, XmlElem.text, List.lookup, hv]
  · simp [generate_function_call, genParamsAux, convert_type_unsupported ht v,
      Except.bind]

/-- Witness for C7: a parameter with type date and raw value 1 is parsed into
the descriptor unvalidated, and synthesis fails with the unsupported-type
error. -/
theorem unsupported_type_fails_at_synthesis_witness :
    parse_function_def (XmlElem.mk "Function" [("name", "GetCurrentDate")] Option.none
        [XmlElem.mk "Input" [] Option.none
          [XmlElem.mk "Parameter" [("name", "d"), ("type", "date")] (some "1") []]])
      = ⟨some "GetCurrentDate", [⟨some "d", some "date", some "1"⟩]⟩
    ∧ generate_function_call ⟨some "GetCurrentDate", [⟨some "d", some "date", some "1"⟩]⟩
      = .error (.unsupportedType (some "date")) :=
  unsupported_type_fails_at_synthesis "GetCurrentDate" "d" "date" "1"
    (by decide) (by decide)

/-- C8: for every parsed record-list root, `parse_books_xml` returns exactly
as many records as the root has direct book children, and the record at each
index is built from the book child at the same index — document order, with
duplicate items preserved as separate records. -/
theorem parse_books_count_and_order :
    ∀ (root : XmlElem) (i : Nat),
      (parse_books_xml_tree root).length
          = root.children.countP (fun c => c.tag == "book")
      ∧ (parse_books_xml_tree root)[i]?
          = ((etFilterTag root "book")[i]?).map create_book_dict := by
  intro root i
  constructor
  · rw [parse_books_xml_tree, List.length_map, etFilterTag,
      List.countP_eq_length_filter]
  · rw [parse_books_xml_tree, List.getElem?_map]

/-- C9: each of the five fixed field names is always populated in the record;
an absent child or a child with empty (or missing) text yields the sentinel
default, and a child with nonempty text contributes that text verbatim. -/
theorem book_fields_defaulted_and_populated :
    ∀ (book : XmlElem) (fname : String), fname ∈ bookFields →
      ((create_book_dict book).lookup fname
          = some (get_element_text (etFind book fname) "Unknown"))
      ∧ (etFind book fname = Option.none →
          (create_book_dict book).lookup fname = some "Unknown")
      ∧ (∀ el, etFind book fname = some el →
          (el.text = Option.none ∨ el.text = some "") →
          (create_book_dict book).lookup fname = some "Unknown")
      ∧ (∀ el t, etFind book fname = some el → el.text = some t → t ≠ "" →
          (create_book_dict book).lookup fname = some t) := by
  intro book fname hmem
  have hkey : (create_book_dict book).lookup fname
      = some (get_element_text (etFind book fname) "Unknown") := by
    fin_cases hmem <;> rfl
  refine ⟨hkey, ?_, ?_, ?_⟩
  · intro h
    rw [hkey, h]
    rfl
  · intro el hel htext
    rw [hkey, hel]
    rcases htext with h | h <;> simp [get_element_text, h]
  · intro el t hel ht hne
    rw [hkey, hel]
    simp [get_element_text, ht, hne]

/-- Witness for C9: on a book element having only a title child with text and
a genre child with empty text, the title field keeps its source text and the
absent author field equals the sentinel default. -/
theorem book_fields_defaulted_and_populated_witness :
    (create_book_dict bookEx).lookup "title" = some "Siddhartha"
    ∧ (create_book_dict bookEx).lookup "author" = some "Unknown"
    ∧ (create_book_dict bookEx).lookup "genre" = some "Unknown" :=
  ⟨(book_fields_defaulted_and_populated bookEx "title" (by decide)).2.2.2
      (XmlElem.mk "title" [] (some "Siddhartha") []) "Siddhartha" rfl rfl (by decide),
   (book_fields_defaulted_and_populated bookEx "author" (by decide)).2.1 rfl,
   (book_fields_defaulted_and_populated bookEx "genre" (by decide)).2.2.1
      (XmlElem.mk "genre" [] (some "") []) rfl (Or.inr rfl)⟩

/-- C10: `convert_type` guards on an absent raw value before consulting the
converter table, returning Python None without raising even for an
unrecognized declared type; and `generate_function_call` filters a
parameter with absent raw value out before any conversion. -/
theorem convert_none_short_circuit :
    ∀ (t fname : Option String) (p : Parameter) (ps : List Parameter),
      convert_type Option.none t = .ok .none
      ∧ (p.value = Option.none →
          generate_function_call ⟨fname, p :: ps⟩ = generate_function_call ⟨fname, ps⟩) := by
  intro t fname p ps
  refine ⟨rfl, fun h => ?_⟩
  simp [generate_function_call, genParamsAux, h]

/-- Witness for C10: with the unrecognized declared type date and an absent
raw value, `convert_type` returns None and the parameter contributes nothing
to the synthesized arguments. -/
theorem convert_none_short_circuit_witness :
    convert_type Option.none (some "date") = .ok .none
    ∧ generate_function_call ⟨some "f", [⟨some "a", some "date", Option.none⟩]⟩
      = generate_function_call ⟨some "f", []⟩ :=
  ⟨(convert_none_short_circuit (some "date") (some "f")
      ⟨some "a", some "date", Option.none⟩ []).1,
   (convert_none_short_circuit (some "date") (some "f")
      ⟨some "a", some "date", Option.none⟩ []).2 rfl⟩

/-- C1 counterexample: the claim that argument evaluation exposes no name
other than the single whitelisted callable is false at the concrete call
expression F(x=G(y=1)) against the whitelist containing F and G: with the
full whitelist, the argument expression reaches the other entry G and the
invocation returns 2; with every other whitelist entry removed the result
changes to a name-resolution error for G — and the other entry is directly
reachable from within the argument expression. -/
theorem invoker_context_counterexample :
    execute_function_call evalFG callFG wlBoth = .ok (.int 2)
    ∧ execute_function_call evalFG callFG wlOnlyF = .error (.nameError "G")
    ∧ execute_function_call evalFG callFG wlBoth
        ≠ execute_function_call evalFG callFG wlOnlyF
    ∧ pyEvalExpr wlBoth (.callE "G" (.cons "y" (.lit (.int 1)) .nil)) = .ok (.int 2) := by
  refine ⟨rfl, rfl, ?_, rfl⟩
  intro h
  rw [show execute_function_call evalFG callFG wlBoth = .ok (.int 2) from rfl,
    show execute_function_call evalFG callFG wlOnlyF = .error (.nameError "G") from rfl] at h
  cases h

/-- C1 amended: when the extracted name is whitelisted, the invoker evaluates
the argument portion with the entire whitelist as the evaluation namespace
(the source passes the whole `available_functions` as eval's locals), so
every whitelist entry — not only the called one — is reachable from the
argument expression; no ambient builtin is reachable, since an expression
head outside the whitelist keys always fails with a name-resolution error. -/
theorem invoker_context_amended :
    ∀ (wl : List (String × PyCallable)) (call : String) (ast : PyExpr),
      ((wl.lookup (extract_func_name call)).isSome = true →
        execute_function_call (fun _ ns => pyEvalExpr ns ast) call wl = pyEvalExpr wl ast)
      ∧ (∀ (s : String) (args : PyArgs), wl.lookup s = Option.none →
          pyEvalExpr wl (.callE s args) = .error (.nameError s))
      ∧ (∀ (s : String) (c : PyCallable) (args : PyArgs), wl.lookup s = some c →
          pyEvalExpr wl (.callE s args) = (pyEvalArgs wl args).bind c.call) := by
  intro wl call ast
  refine ⟨fun h => ?_, fun s args h => ?_, fun s c args h => ?_⟩
  · simp [execute_function_call, h]
  · simp [pyEvalExpr, h]
  · simp [pyEvalExpr, h]

/-- Witness for the amended C1: at the concrete whitelist holding F and G,
the gate passes for F and evaluation runs against the whole whitelist; the
name H outside the whitelist fails to resolve (no ambient builtins), while
the other whitelist entry G resolves and is applied. -/
theorem invoker_context_amended_witness :
    execute_function_call (fun _ ns => pyEvalExpr ns astFG) callFG wlBoth
        = pyEvalExpr wlBoth astFG
    ∧ pyEvalExpr wlBoth (.callE "H" .nil) = .error (.nameError "H")
    ∧ pyEvalExpr wlBoth (.callE "G" (.cons "y" (.lit (.int 1)) .nil))
        = (pyEvalArgs wlBoth (.cons "y" (.lit (.int 1)) .nil)).bind gCallable.call :=
  ⟨(invoker_context_amended wlBoth callFG astFG).1 (by rfl),
   (invoker_context_amended wlBoth callFG astFG).2.1 "H" .nil (by rfl),
   (invoker_context_amended wlBoth callFG astFG).2.2 "G" gCallable
      (.cons "y" (.lit (.int 1)) .nil) (by rfl)⟩

/-- C3 counterexample: on the input where the closing delimiter occurs only
before the opening delimiter, both `str.find` calls succeed, so the extractor
does not fail as the claim requires: it silently returns the (empty) slice. -/
theorem extract_close_before_open_returns_ok :
    extract_xml_content "</booklist><booklist>" = .ok ""
    ∧ extract_xml_content "</booklist><booklist>" ≠ .error .extractionError := by
  have h : extract_xml_content "</booklist><booklist>" = .ok "" := by rfl
  refine ⟨h, ?_⟩
  intro hbad
  rw [h] at hbad
  cases hbad

/-- C3 amended: extraction fails with the extraction error exactly when the
opening delimiter is absent or the closing delimiter is absent (`str.find`
returning -1); when both are present the extractor returns a payload slice
even if the first closing delimiter precedes the first opening one. -/
theorem extract_error_iff_delimiter_absent :
    ∀ text : String,
      extract_xml_content text = .error .extractionError ↔
        (findSub openDelim text.data = Option.none
          ∨ findSub closeDelim text.data = Option.none) := by
  intro text
  unfold extract_xml_content
  cases ho : findSub openDelim text.data <;> cases hc : findSub closeDelim text.data <;> simp

/-- Witness for the amended C3: a text with no delimiters at all fails with
the extraction error. -/
theorem extract_error_iff_delimiter_absent_witness :
    extract_xml_content "no markup here" = .error .extractionError :=
  (extract_error_iff_delimiter_absent "no markup here").mpr (Or.inl (by rfl))

theorem extract_slice_spec {hay : List Char} {s e : Nat}
    (hs : findSub openDelim hay = some s)
    (he : findSub closeDelim hay = some e)
    (hlt : s < e) :
    (∃ rest, (hay.drop s).take (e + 11 - s) = openDelim ++ rest)
    ∧ (∃ pre, (hay.drop s).take (e + 11 - s) = pre ++ closeDelim)
    ∧ findSub openDelim ((hay.drop s).take (e + 11 - s)) = some 0
    ∧ findSub closeDelim ((hay.drop s).take (e + 11 - s)) = some (e - s)
    ∧ ((hay.drop s).take (e + 11 - s)).length = e + 11 - s := by
  obtain ⟨R, hR⟩ := leadsWith_iff_append.mp (findSub_some hs)
  obtain ⟨Q, hQ⟩ := leadsWith_iff_append.mp (findSub_some he)
  have hlenQ : hay.length - e = 11 + Q.length := by
    rw [← List.length_drop, hQ]
    simp only [closeDelim, List.length_append, List.length_cons, List.length_nil]
  have hhe : e + 11 ≤ hay.length := by omega
  have hsplit : hay.drop s = ((hay.drop s).take (e - s)) ++ (closeDelim ++ Q) := by
    conv_lhs => rw [← List.take_append_drop (e - s) (hay.drop s)]
    congr 1
    rw [List.drop_drop, show s + (e - s) = e from by omega]
    exact hQ
  have hTlen : ((hay.drop s).take (e - s)).length = e - s := by
    rw [List.length_take, List.length_drop]
    omega
  have hplT : (hay.drop s).take (e + 11 - s)
      = ((hay.drop s).take (e - s)) ++ closeDelim := by
    conv_lhs => rw [hsplit]
    rw [List.take_append_eq_append_take,
      List.take_of_length_le (by rw [hTlen]; omega), hTlen,
      show e + 11 - s - (e - s) = 11 from by omega,
      List.take_left' (by simp [closeDelim])]
  have hplO : ∃ rest, (hay.drop s).take (e + 11 - s) = openDelim ++ rest := by
    refine ⟨R.take (e + 11 - s - openDelim.length), ?_⟩
    conv_lhs => rw [hR]
    rw [List.take_append_eq_append_take]
    congr 1
    exact List.take_of_length_le (by simp [openDelim]; omega)
  have hpllen : ((hay.drop s).take (e + 11 - s)).length = e + 11 - s := by
    rw [List.length_take, List.length_drop]
    omega
  have hfo : findSub openDelim ((hay.drop s).take (e + 11 - s)) = some 0 := by
    obtain ⟨rest, hrest⟩ := hplO
    rw [hrest]
    exact findSub_of_leadsWith (leadsWith_append _ _)
  have hocc : leadsWith closeDelim (((hay.drop s).take (e + 11 - s)).drop (e - s)) = true := by
    rw [hplT, List.drop_left' hTlen]
    simpa using leadsWith_append closeDelim []
  obtain ⟨j, hj, hjle⟩ := findSub_le_of_leadsWith hocc
  have hjeq : j = e - s := by
    rcases Nat.lt_or_ge j (e - s) with hjlt | hge
    · exfalso
      have hlw := findSub_some hj
      have hrw : ((hay.drop s).take (e + 11 - s)).drop j
          = (hay.drop (s + j)).take (e + 11 - s - j) := by
        rw [List.drop_take, List.drop_drop]
      rw [hrw] at hlw
      have hlw2 := leadsWith_take hlw
      have hfalse := findSub_min he (s + j) (by omega)
      rw [hfalse] at hlw2
      cases hlw2
    · omega
  subst hjeq
  exact ⟨hplO, ⟨_, hplT⟩, hfo, hj, hpllen⟩

/-- C4: on text whose first opening delimiter precedes its first closing
delimiter, extraction succeeds with a payload that begins with the opening
delimiter and ends with the closing delimiter, and extraction is idempotent:
re-extracting from the returned payload yields the same payload.  The final
bs4 prettify normalization — an external library call required by spec
section 4.2 to preserve all content — is modelled as the identity
`bs4Prettify`. -/
theorem extract_payload_delimited_and_idempotent :
    ∀ (text : String) (s e : Nat),
      findSub openDelim text.data = some s →
      findSub closeDelim text.data = some e →
      s < e →
      ∃ payload : String,
        extract_xml_content text = .ok payload
        ∧ (∃ rest, payload.data = openDelim ++ rest)
        ∧ (∃ pre, payload.data = pre ++ closeDelim)
        ∧ extract_xml_content payload = .ok payload := by
  intro text s e hs he hlt
  obtain ⟨hopen, hclose, hfo, hfc, hlen⟩ := extract_slice_spec hs he hlt
  refine ⟨String.mk ((text.data.drop s).take (e + 11 - s)), ?_, hopen, hclose, ?_⟩
  · unfold extract_xml_content
    rw [hs, he]
    rfl
  · unfold extract_xml_content
    rw [show (String.mk ((text.data.drop s).take (e + 11 - s))).data
        = (text.data.drop s).take (e + 11 - s) from rfl, hfo, hfc]
    simp only [bs4Prettify, List.drop_zero, Nat.sub_zero]
    congr 2
    exact List.take_of_length_le (by omega)

/-- Witness for C4: on a concrete text with prose around the delimited
fragment, extraction returns a payload delimited on both ends and stable
under re-extraction. -/
theorem extract_payload_delimited_and_idempotent_witness :
    ∃ payload : String,
      extract_xml_content "a<booklist><book/></booklist>b" = .ok payload
      ∧ (∃ rest, payload.data = openDelim ++ rest)
      ∧ (∃ pre, payload.data = pre ++ closeDelim)
      ∧ extract_xml_content payload = .ok payload :=
  extract_payload_delimited_and_idempotent "a<booklist><book/></booklist>b" 1 18
    (by rfl) (by rfl) (by decide)

end LlmXml
